import Mathlib

/-!
# Shallow embedding of the quasi-static scheduler (`scheduler_QS.c`)

This file embeds the quasi-static scheduler of the threaded C runtime
(`core/threaded/scheduler_QS.c`, together with the generated schedule table
`static_schedule.h` and the instruction format `instruction_QS.h`) and proves
properties of the embedded definitions.

Modelling conventions:
* Machine integers (`size_t`, `int`, `uint32_t`) are modelled as `Nat`; none of
  the scheduler's arithmetic can overflow on the inputs considered (counters
  are bounded by worker counts and stream lengths).
* The global `_lf_sched_instance` struct is an explicit state record
  (`SchedState`) threaded through every operation.
* Counting semaphores are modelled by their counter value (`Nat`); a blocking
  acquire on a zero counter is represented by an explicit `blocked` outcome of
  the enclosing operation, and resumption (once another worker has released the
  semaphore) is a separate step.
* `error_print_and_exit` (a fatal, process-terminating error) is modelled by
  an `Option` result: `none` means the fatal error fired.
* Mutex lock/unlock operations are elided: they are platform primitives that
  are out of scope and do not change scheduler state.
* Collaborators whose code is not part of the scheduler sources
  (`_lf_sched_advance_tag_locked` from `scheduler_sync_tag_advance.c`,
  the semaphore library, `init_sched_instance` from `scheduler_instance.h`)
  are modelled from the spec; each such definition is marked in its
  doc comment.
-/

/-- Reaction run status. Modelled from the spec: the reaction record (owned by
the external runtime, `reactor.h`) holds "a run status in `{inactive, queued}`".
The scheduler only compares against `queued` and writes `queued`/`inactive`. -/
inductive ReactionStatus where
  | inactive
  | queued
deriving Repr, DecidableEq

/-- Instruction format, from `instruction_QS.h`.  The struct there names the
operand field `nid` (with a further unused `loc` field); `scheduler_QS.c`
accesses the operand as `.op`.  We carry all three fields; `loc` is never read
by the scheduler. `inst` is the opcode character ('e', 'w', 'n', 's'). -/
structure inst_t where
  inst : Char
  op : Nat
  loc : Nat
deriving Repr, DecidableEq

/-- The scheduler instance (`_lf_sched_instance_t` plus the external globals it
binds).  `pc`, `semaphores` and `reaction_status` are total maps from indices;
the C code only ever accesses indices below `number_of_workers`,
`num_semaphores` and `reaction_count` respectively.

`tag_results` models the pending outcomes of the external
`_lf_sched_advance_tag_locked` calls (see `_lf_sched_advance_tag_locked`
below). -/
structure SchedState where
  /-- `_lf_sched_instance->pc`: per-worker program counter. -/
  pc : Nat → Nat
  /-- `_lf_sched_instance->current_schedule_index`. -/
  current_schedule_index : Nat
  /-- `static_schedules[schedule][worker]`: generated instruction streams. -/
  static_schedules : List (List (List inst_t))
  /-- `schedule_lengths[schedule][worker]`: declared stream lengths. -/
  schedule_lengths : List (List Nat)
  /-- status field of `reaction_instances[r]` (the reaction table). -/
  reaction_status : Nat → ReactionStatus
  /-- `_lf_sched_instance->semaphores`: counter values of the semaphore pool. -/
  semaphores : Nat → Nat
  /-- `_lf_sched_instance->_lf_sched_number_of_workers`. -/
  number_of_workers : Nat
  /-- `_lf_sched_instance->_lf_sched_number_of_idle_workers`. -/
  number_of_idle_workers : Nat
  /-- counter value of `_lf_sched_instance->_lf_sched_semaphore`
  (the shared scheduling semaphore). -/
  sched_semaphore : Nat
  /-- `_lf_sched_instance->_lf_sched_should_stop`. -/
  should_stop : Bool
  /-- pending results of the external tag-advance calls (model input). -/
  tag_results : List Bool
  /-- whether `init_sched_instance` has already run (model of the
  "already initialized" check). -/
  initialized : Bool

namespace SchedState

/-- `_lf_sched_instance->schedule_lengths[schedule_index][worker_number]`. -/
def streamLen (s : SchedState) (worker : Nat) : Nat :=
  (s.schedule_lengths.getD s.current_schedule_index []).getD worker 0

/-- `current_schedule[*pc]` for the given worker, i.e.
`static_schedules[schedule_index][worker_number][p]`. -/
def instrAt (s : SchedState) (worker p : Nat) : inst_t :=
  ((s.static_schedules.getD s.current_schedule_index []).getD worker []).getD p
    ⟨'x', 0, 0⟩

/-- `*pc += 1` for the given worker. -/
def incPC (s : SchedState) (worker : Nat) : SchedState :=
  { s with pc := fun w => if w = worker then s.pc worker + 1 else s.pc w }

/-- `lf_semaphore_release(semaphores[i], 1)`: increment semaphore `i`. -/
def incSem (s : SchedState) (i : Nat) : SchedState :=
  { s with semaphores := fun j => if j = i then s.semaphores i + 1 else s.semaphores j }

/-- the decrement half of a semaphore acquire on pool semaphore `i`. -/
def decSem (s : SchedState) (i : Nat) : SchedState :=
  { s with semaphores := fun j => if j = i then s.semaphores i - 1 else s.semaphores j }

end SchedState

/-- `_lf_sched_signal_stop` (scheduler_QS.c:100-104): set
`_lf_sched_should_stop = true` and release the scheduling semaphore
`number_of_workers - 1` times. -/
def _lf_sched_signal_stop (s : SchedState) : SchedState :=
  { s with
    should_stop := true
    sched_semaphore := s.sched_semaphore + (s.number_of_workers - 1) }

/-- Modelled from the spec: `_lf_sched_advance_tag_locked` lives in
`scheduler_sync_tag_advance.c`, which is not part of the scheduler sources
here.  Per the spec it is "a single blocking call that returns whether the
terminal tag has been reached".  The model pops the next pending outcome from
`tag_results` (defaulting to "terminal reached" when exhausted). -/
def _lf_sched_advance_tag_locked (s : SchedState) : Bool × SchedState :=
  (s.tag_results.headD true, { s with tag_results := s.tag_results.tail })

/-- `_lf_sched_notify_workers` (scheduler_QS.c:67-94): the entire body is
commented out (marked `TODO`), so the function does nothing. -/
def _lf_sched_notify_workers (s : SchedState) : SchedState := s

/-- Outcome of `_lf_sched_wait_for_work`: either the call returns, or the
calling worker is blocked on the scheduling semaphore (its counter was zero
at the acquire). -/
inductive WaitOut where
  | done (s : SchedState)
  | blockedSched (s : SchedState)

namespace WaitOut

/-- The scheduler state carried by a `_lf_sched_wait_for_work` outcome. -/
def st : WaitOut → SchedState
  | done s => s
  | blockedSched s => s

end WaitOut

/-- `_lf_sched_wait_for_work` (scheduler_QS.c:116-149): atomically increment
`number_of_idle_workers`; if the incremented count equals
`number_of_workers`, this worker is the last to go idle: it calls
`_lf_sched_advance_tag_locked`, calls `_lf_sched_signal_stop` if the stop tag
was reached, unlocks the mutex (elided) and calls `_lf_sched_notify_workers`.
Otherwise it blocks acquiring the scheduling semaphore (decrementing it when
the acquire succeeds). -/
def _lf_sched_wait_for_work (worker_number : Nat) (s : SchedState) : WaitOut :=
  let s1 := { s with number_of_idle_workers := s.number_of_idle_workers + 1 }
  if s1.number_of_idle_workers = s1.number_of_workers then
    let r := _lf_sched_advance_tag_locked s1
    let s3 := if r.1 then _lf_sched_signal_stop r.2 else r.2
    WaitOut.done (_lf_sched_notify_workers s3)
  else
    if 0 < s1.sched_semaphore then
      WaitOut.done { s1 with sched_semaphore := s1.sched_semaphore - 1 }
    else
      WaitOut.blockedSched s1

/-- Outcome of one `lf_sched_get_ready_reaction` call: `ret r s` means the
call returned (`r = some id` a ready reaction, `r = none` NULL) in state `s`;
`blockedSched s` means the worker is blocked inside `_lf_sched_wait_for_work`
on the scheduling semaphore; `blockedSem i s` means the worker is blocked in
`lf_semaphore_wait` on pool semaphore `i`. -/
inductive CallOut where
  | ret (r : Option Nat) (s : SchedState)
  | blockedSched (s : SchedState)
  | blockedSem (i : Nat) (s : SchedState)

namespace CallOut

/-- The scheduler state carried by the outcome. -/
def st : CallOut → SchedState
  | ret _ s => s
  | blockedSched s => s
  | blockedSem _ s => s

/-- `some r` when the call returned `r`; `none` when the worker is blocked. -/
def retVal : CallOut → Option (Option Nat)
  | ret r _ => some r
  | blockedSched _ => none
  | blockedSem _ _ => none

end CallOut

/-- The interpreter loop of `lf_sched_get_ready_reaction`
(scheduler_QS.c:236-272), as a function of the remaining iteration count.
The loop body increments `*pc` by exactly one each iteration and runs only
while `*pc < schedule_lengths[schedule_index][worker_number]`, so the loop
performs exactly `streamLen - pc` iterations unless it exits early;
`lf_sched_get_ready_reaction` below instantiates `fuel` with that number, and
when `fuel = 0` the loop guard `*pc < length` is false, so the loop exits with
`returned_reaction = NULL`.

The second component is a ghost record of the indices `*pc` at which the
instruction stream `current_schedule[*pc]` was read; it has no effect on the
result and serves to state that the interpreter never reads at or past the
declared stream length.

Cases of the `switch` on `current_schedule[*pc].inst`:
* `'e'` (Execute): if the reaction's status is `queued`, set
  `returned_reaction`, set `loop_done`, increment `*pc`, and the loop exits:
  the call returns the reaction with the pc one past the instruction.
  Otherwise skip: increment `*pc` and continue.
* `'w'` (Wait): `lf_semaphore_wait` on the pool semaphore (modelled from the
  spec: "decrement-or-block"; the semaphore library is external); then
  increment `*pc` and continue.
* `'n'` (Notify): release the pool semaphore once, increment `*pc`, continue.
* `'s'` (Stop): set `loop_done`, call `_lf_sched_wait_for_work`; on return
  increment `*pc` and the loop exits with `returned_reaction = NULL`.
* any other opcode: no case of the switch matches; increment `*pc`, continue. -/
def interpGo (worker : Nat) : Nat → SchedState → CallOut × List Nat
  | 0, s => (CallOut.ret none s, [])
  | fuel + 1, s =>
    if s.pc worker < s.streamLen worker then
      let p := s.pc worker
      let ins := s.instrAt worker p
      if ins.inst = 'e' then
        if s.reaction_status ins.op = ReactionStatus.queued then
          (CallOut.ret (some ins.op) (s.incPC worker), [p])
        else
          let rest := interpGo worker fuel (s.incPC worker)
          (rest.1, p :: rest.2)
      else if ins.inst = 'w' then
        if 0 < s.semaphores ins.op then
          let rest := interpGo worker fuel ((s.decSem ins.op).incPC worker)
          (rest.1, p :: rest.2)
        else
          (CallOut.blockedSem ins.op s, [p])
      else if ins.inst = 'n' then
        let rest := interpGo worker fuel ((s.incSem ins.op).incPC worker)
        (rest.1, p :: rest.2)
      else if ins.inst = 's' then
        match _lf_sched_wait_for_work worker s with
        | WaitOut.done s' => (CallOut.ret none (s'.incPC worker), [p])
        | WaitOut.blockedSched s' => (CallOut.blockedSched s', [p])
      else
        let rest := interpGo worker fuel (s.incPC worker)
        (rest.1, p :: rest.2)
    else
      (CallOut.ret none s, [])

/-- `lf_sched_get_ready_reaction` (scheduler_QS.c:222-275): run the
interpreter loop for worker `worker_number` from its current program counter. -/
def lf_sched_get_ready_reaction (worker_number : Nat) (s : SchedState) : CallOut :=
  (interpGo worker_number (s.streamLen worker_number - s.pc worker_number) s).1

/-- The ghost list of instruction-stream indices read during one
`lf_sched_get_ready_reaction` call (see `interpGo`). -/
def instrReads (worker_number : Nat) (s : SchedState) : List Nat :=
  (interpGo worker_number (s.streamLen worker_number - s.pc worker_number) s).2

/-- Resumption of a worker blocked inside the Stop case of the interpreter on
the scheduling semaphore: once the semaphore counter is positive,
`lf_semaphore_acquire` returns (decrementing the counter),
`_lf_sched_wait_for_work` returns, `*pc += 1` runs, and the loop exits
(`loop_done` was set by the Stop case) returning `returned_reaction = NULL`.
Returns `none` while the semaphore counter is still zero (still blocked). -/
def resumeBlockedSched (worker_number : Nat) (s : SchedState) : Option CallOut :=
  if 0 < s.sched_semaphore then
    some (CallOut.ret none
      (({ s with sched_semaphore := s.sched_semaphore - 1 }).incPC worker_number))
  else
    none

/-- `lf_sched_done_with_reaction` (scheduler_QS.c:291-297):
`lf_bool_compare_and_swap(&status, queued, inactive)`; on CAS failure,
`error_print_and_exit` fires (modelled as `none`). -/
def lf_sched_done_with_reaction (worker_number : Nat) (done_reaction : Nat)
    (s : SchedState) : Option SchedState :=
  if s.reaction_status done_reaction = ReactionStatus.queued then
    some { s with reaction_status := fun r =>
            if r = done_reaction then ReactionStatus.inactive
            else s.reaction_status r }
  else
    none

/-- `lf_sched_trigger_reaction` (scheduler_QS.c:314-317): unconditionally set
`reaction->status = queued`. -/
def lf_sched_trigger_reaction (reaction : Nat) (worker_number : Nat)
    (s : SchedState) : SchedState :=
  { s with reaction_status := fun r =>
      if r = reaction then ReactionStatus.queued else s.reaction_status r }

/-- `lf_sched_reset_pc` (scheduler_QS.c:323-328): set `pc[w] = 0` for every
`w < number_of_workers`. -/
def lf_sched_reset_pc (s : SchedState) : SchedState :=
  { s with pc := fun w => if w < s.number_of_workers then 0 else s.pc w }

/-! ## The generated schedule table (`static_schedule.h`) -/

/-- `static const int reaction_count = 4`. -/
def reaction_count : Nat := 4

/-- Schedule 1, worker 1 stream (`s1_w1`). -/
def s1_w1 : List inst_t := [⟨'e', 0, 2⟩, ⟨'e', 1, 2⟩, ⟨'s', 0, 0⟩]

/-- Schedule 1, worker 2 stream (`s1_w2`). -/
def s1_w2 : List inst_t := [⟨'s', 0, 0⟩]

/-- Schedule 1, worker 3 stream (`s1_w3`). -/
def s1_w3 : List inst_t := [⟨'s', 0, 0⟩]

/-- Schedule 2, worker 1 stream (`s2_w1`). -/
def s2_w1 : List inst_t := [⟨'e', 2, 2⟩, ⟨'e', 3, 2⟩, ⟨'s', 0, 0⟩]

/-- Schedule 2, worker 2 stream (`s2_w2`). -/
def s2_w2 : List inst_t := [⟨'s', 0, 0⟩]

/-- Schedule 2, worker 3 stream (`s2_w3`). -/
def s2_w3 : List inst_t := [⟨'s', 0, 0⟩]

/-- `static_schedules = { s1, s2 }` with `s1 = { s1_w1, s1_w2, s1_w3 }` and
`s2 = { s2_w1, s2_w2, s2_w3 }`. -/
def static_schedules : List (List (List inst_t)) :=
  [[s1_w1, s1_w2, s1_w3], [s2_w1, s2_w2, s2_w3]]

/-- `schedule_lengths = { s1_length, s2_length }` with
`s1_length = {3, 1, 1}` and `s2_length = {3, 1, 1}`. -/
def schedule_lengths : List (List Nat) := [[3, 1, 1], [3, 1, 1]]

/-! ## Initialization -/

/-- `sched_params_t`: the parameter struct handed to `lf_sched_init`.  Of its
fields the QS scheduler reads only `reaction_instances` (the reaction table);
here that is the table's status map. -/
structure sched_params_t where
  reaction_instances : Nat → ReactionStatus

/-- `lf_sched_init` (scheduler_QS.c:163-195).  The call to
`init_sched_instance` (from `scheduler_instance.h`, whose implementation is
not part of these sources) is modelled from the spec: it returns true iff the
scheduler "has not been initialized before" — allocating the instance,
recording the worker count, zeroing the idle-worker count, creating the
scheduling semaphore at 0 and clearing the stop flag — and returns false
(leaving everything untouched) when already initialized, in which case
`lf_sched_init` returns immediately.  On a first call with `params == NULL`,
`error_print_and_exit` fires (modelled as `none`).  Otherwise the QS-specific
fields are initialized: the generated schedule table is bound,
`current_schedule_index = 0`, all program counters are calloc-zeroed, the
reaction table is taken from `params`, and every pool semaphore starts at 0. -/
def lf_sched_init (number_of_workers : Nat) (params : Option sched_params_t)
    (s : SchedState) : Option SchedState :=
  if s.initialized then
    some s
  else
    match params with
    | none => none
    | some p =>
      some
        { initialized := true
          number_of_workers := number_of_workers
          number_of_idle_workers := 0
          sched_semaphore := 0
          should_stop := false
          static_schedules := static_schedules
          current_schedule_index := 0
          schedule_lengths := schedule_lengths
          pc := fun _ => 0
          reaction_status := p.reaction_instances
          semaphores := fun _ => 0
          tag_results := s.tag_results }

/-! ## End-to-end scenario A (spec section 8), on the generated schedule -/

/-- An uninitialized scheduler state, with `tags` the pending outcomes of the
external tag-advance calls. -/
def uninitState (tags : List Bool) : SchedState :=
  { pc := fun _ => 0
    current_schedule_index := 0
    static_schedules := []
    schedule_lengths := []
    reaction_status := fun _ => ReactionStatus.inactive
    semaphores := fun _ => 0
    number_of_workers := 0
    number_of_idle_workers := 0
    sched_semaphore := 0
    should_stop := false
    tag_results := tags
    initialized := false }

/-- Scenario A start state: `lf_sched_init` with 3 workers on the generated
schedule table, reactions 0 and 1 then pre-triggered; the single pending
tag-advance outcome is "terminal tag reached". -/
def scA_s0 : SchedState :=
  lf_sched_trigger_reaction 1 0 (lf_sched_trigger_reaction 0 0
    ((lf_sched_init 3 (some ⟨fun _ => ReactionStatus.inactive⟩)
      (uninitState [true])).getD (uninitState [true])))

def scA_c1 : CallOut := lf_sched_get_ready_reaction 0 scA_s0
def scA_c2 : CallOut := lf_sched_get_ready_reaction 0 scA_c1.st
def scA_s2 : SchedState := (lf_sched_done_with_reaction 0 0 scA_c2.st).getD scA_c2.st
def scA_s3 : SchedState := (lf_sched_done_with_reaction 0 1 scA_s2).getD scA_s2
def scA_c3 : CallOut := lf_sched_get_ready_reaction 1 scA_s3
def scA_c4 : CallOut := lf_sched_get_ready_reaction 2 scA_c3.st
def scA_c5 : CallOut := lf_sched_get_ready_reaction 0 scA_c4.st


/-- Resumption of worker 2's blocked call, once the elected worker has
released the scheduling semaphore. -/
def scA_r1 : Option CallOut := resumeBlockedSched 1 scA_c5.st

/-- Resumption of worker 3's blocked call, after worker 2's resumption. -/
def scA_r2 : Option CallOut := resumeBlockedSched 2 (scA_r1.getD scA_c5).st

/-! ## A non-terminal tag with the elected worker (scenario for the
tag-advance path of `_lf_sched_wait_for_work`) -/

/-- Same start state as scenario A, but the single pending tag-advance
outcome is "terminal tag NOT reached". -/
def scB_s0 : SchedState :=
  lf_sched_trigger_reaction 1 0 (lf_sched_trigger_reaction 0 0
    ((lf_sched_init 3 (some ⟨fun _ => ReactionStatus.inactive⟩)
      (uninitState [false])).getD (uninitState [false])))

def scB_c1 : CallOut := lf_sched_get_ready_reaction 0 scB_s0
def scB_c2 : CallOut := lf_sched_get_ready_reaction 0 scB_c1.st
def scB_s2 : SchedState := (lf_sched_done_with_reaction 0 0 scB_c2.st).getD scB_c2.st
def scB_s3 : SchedState := (lf_sched_done_with_reaction 0 1 scB_s2).getD scB_s2
def scB_c3 : CallOut := lf_sched_get_ready_reaction 1 scB_s3
def scB_c4 : CallOut := lf_sched_get_ready_reaction 2 scB_c3.st
def scB_c5 : CallOut := lf_sched_get_ready_reaction 0 scB_c4.st

/-! ## A single-worker two-tag run (idle-counter scenario) -/

/-- One worker, no reactions triggered, two non-terminal tag outcomes
pending. -/
def scC_s0 : SchedState :=
  (lf_sched_init 1 (some ⟨fun _ => ReactionStatus.inactive⟩)
      (uninitState [false, false])).getD (uninitState [false, false])

def scC_c1 : CallOut := lf_sched_get_ready_reaction 0 scC_s0

/-- The schedule is re-armed for the next tag through the exposed
administrative reset (`lf_sched_reset_pc`), and the worker interprets its
stream again. -/
def scC_c2 : CallOut := lf_sched_get_ready_reaction 0 (lf_sched_reset_pc scC_c1.st)


/-- Interpretation of a sequence of calls: fold `lf_sched_get_ready_reaction`
over a list of calling workers, collecting for each call the ghost
instruction-read record as `(worker, index)` pairs.  (A blocked call
contributes the state at its blocking point, which is how the shared state
evolves in an interleaving where the blocked worker stays suspended.) -/
def runCalls : SchedState → List Nat → SchedState × List (Nat × Nat)
  | s, [] => (s, [])
  | s, w :: ws =>
    let rest := runCalls (lf_sched_get_ready_reaction w s).st ws
    (rest.1, (instrReads w s).map (fun p => (w, p)) ++ rest.2)

/-! ## Basic lemmas about the state operations -/

theorem streamLen_incPC (s : SchedState) (w v : Nat) :
    (s.incPC w).streamLen v = s.streamLen v := rfl

theorem streamLen_incSem (s : SchedState) (i v : Nat) :
    (s.incSem i).streamLen v = s.streamLen v := rfl

theorem streamLen_decSem (s : SchedState) (i v : Nat) :
    (s.decSem i).streamLen v = s.streamLen v := rfl

theorem pc_incPC_self (s : SchedState) (w : Nat) :
    (s.incPC w).pc w = s.pc w + 1 := by
  simp [SchedState.incPC]

theorem pc_incPC_of_ne (s : SchedState) {w v : Nat} (h : v ≠ w) :
    (s.incPC w).pc v = s.pc v := by
  simp [SchedState.incPC, h]

theorem pc_incPC_le (s : SchedState) (w v : Nat) :
    s.pc v ≤ (s.incPC w).pc v := by
  by_cases h : v = w
  · subst h; rw [pc_incPC_self]; exact Nat.le_succ _
  · rw [pc_incPC_of_ne s h]

theorem pc_incSem (s : SchedState) (i : Nat) : (s.incSem i).pc = s.pc := rfl

theorem pc_decSem (s : SchedState) (i : Nat) : (s.decSem i).pc = s.pc := rfl

/-- `_lf_sched_wait_for_work` touches only the idle-worker count, the
scheduling semaphore, the stop flag and the tag bookkeeping: program
counters, schedule table/index, declared lengths, reaction statuses and pool
semaphores are unchanged in both of its outcomes. -/
theorem wait_for_work_st_fields (w : Nat) (s : SchedState) :
    ((_lf_sched_wait_for_work w s).st).pc = s.pc ∧
    ((_lf_sched_wait_for_work w s).st).schedule_lengths = s.schedule_lengths ∧
    ((_lf_sched_wait_for_work w s).st).current_schedule_index = s.current_schedule_index ∧
    ((_lf_sched_wait_for_work w s).st).static_schedules = s.static_schedules ∧
    ((_lf_sched_wait_for_work w s).st).reaction_status = s.reaction_status ∧
    ((_lf_sched_wait_for_work w s).st).semaphores = s.semaphores := by
  unfold _lf_sched_wait_for_work _lf_sched_notify_workers _lf_sched_advance_tag_locked
    _lf_sched_signal_stop
  dsimp only
  split
  · split <;> exact ⟨rfl, rfl, rfl, rfl, rfl, rfl⟩
  · split <;> exact ⟨rfl, rfl, rfl, rfl, rfl, rfl⟩

/-! ## Frame and bounds lemmas for the interpreter loop -/

/-- The interpreter loop never writes the schedule table, the schedule index,
the declared lengths, or any reaction status. -/
theorem interpGo_frame (w : Nat) :
    ∀ (fuel : Nat) (s : SchedState),
    ((interpGo w fuel s).1.st).schedule_lengths = s.schedule_lengths ∧
    ((interpGo w fuel s).1.st).current_schedule_index = s.current_schedule_index ∧
    ((interpGo w fuel s).1.st).static_schedules = s.static_schedules ∧
    ((interpGo w fuel s).1.st).reaction_status = s.reaction_status := by
  intro fuel
  induction fuel with
  | zero => intro s; exact ⟨rfl, rfl, rfl, rfl⟩
  | succ n ih =>
    intro s
    rw [interpGo]
    dsimp only
    split
    · split
      · split
        · exact ⟨rfl, rfl, rfl, rfl⟩
        · exact ih (s.incPC w)
      · split
        · split
          · exact ih ((s.decSem _).incPC w)
          · exact ⟨rfl, rfl, rfl, rfl⟩
        · split
          · exact ih ((s.incSem _).incPC w)
          · split
            · split
              · next s' heq =>
                have h := wait_for_work_st_fields w s
                rw [heq] at h
                exact ⟨h.2.1, h.2.2.1, h.2.2.2.1, h.2.2.2.2.1⟩
              · next s' heq =>
                have h := wait_for_work_st_fields w s
                rw [heq] at h
                exact ⟨h.2.1, h.2.2.1, h.2.2.2.1, h.2.2.2.2.1⟩
            · exact ih (s.incPC w)
    · exact ⟨rfl, rfl, rfl, rfl⟩

/-- No iteration of the interpreter loop ever decreases any worker's program
counter. -/
theorem interpGo_pc_mono (w : Nat) :
    ∀ (fuel : Nat) (s : SchedState) (v : Nat),
    s.pc v ≤ ((interpGo w fuel s).1.st).pc v := by
  intro fuel
  induction fuel with
  | zero => intro s v; exact Nat.le_refl _
  | succ n ih =>
    intro s v
    rw [interpGo]
    dsimp only
    split
    · split
      · split
        · exact pc_incPC_le s w v
        · exact Nat.le_trans (pc_incPC_le s w v) (ih (s.incPC w) v)
      · split
        · split
          · exact Nat.le_trans (pc_incPC_le (s.decSem _) w v) (ih _ v)
          · exact Nat.le_refl _
        · split
          · exact Nat.le_trans (pc_incPC_le (s.incSem _) w v) (ih _ v)
          · split
            · split
              · next s' heq =>
                have hp := (wait_for_work_st_fields w s).1
                rw [heq] at hp
                show s.pc v ≤ (s'.incPC w).pc v
                calc s.pc v = s'.pc v := (congrFun hp v).symm
                  _ ≤ (s'.incPC w).pc v := pc_incPC_le s' w v
              · next s' heq =>
                have hp := (wait_for_work_st_fields w s).1
                rw [heq] at hp
                show s.pc v ≤ s'.pc v
                exact Nat.le_of_eq (congrFun hp v).symm
            · exact Nat.le_trans (pc_incPC_le s w v) (ih _ v)
    · exact Nat.le_refl _

/-- If every program counter is within its declared stream length, the
interpreter loop keeps it so (bounds relative to the starting state's
declared lengths, which the loop never changes). -/
theorem interpGo_pc_le (w : Nat) :
    ∀ (fuel : Nat) (s : SchedState),
    (∀ v, s.pc v ≤ s.streamLen v) →
    ∀ v, ((interpGo w fuel s).1.st).pc v ≤ s.streamLen v := by
  intro fuel
  induction fuel with
  | zero => intro s h v; exact h v
  | succ n ih =>
    intro s h v
    rw [interpGo]
    dsimp only
    split
    · next hguard =>
      split
      · split
        · show (s.incPC w).pc v ≤ s.streamLen v
          by_cases hv : v = w
          · subst hv; rw [pc_incPC_self]; exact hguard
          · rw [pc_incPC_of_ne s hv]; exact h v
        · refine ih (s.incPC w) ?_ v
          intro u
          show (s.incPC w).pc u ≤ s.streamLen u
          by_cases hu : u = w
          · subst hu; rw [pc_incPC_self]; exact hguard
          · rw [pc_incPC_of_ne s hu]; exact h u
      · split
        · split
          · refine ih ((s.decSem _).incPC w) ?_ v
            intro u
            show ((s.decSem _).incPC w).pc u ≤ s.streamLen u
            by_cases hu : u = w
            · subst hu; rw [pc_incPC_self]; exact hguard
            · rw [pc_incPC_of_ne _ hu]; exact h u
          · exact h v
        · split
          · refine ih ((s.incSem _).incPC w) ?_ v
            intro u
            show ((s.incSem _).incPC w).pc u ≤ s.streamLen u
            by_cases hu : u = w
            · subst hu; rw [pc_incPC_self]; exact hguard
            · rw [pc_incPC_of_ne _ hu]; exact h u
          · split
            · split
              · next s' heq =>
                have hp := (wait_for_work_st_fields w s).1
                rw [heq] at hp
                dsimp only [WaitOut.st] at hp
                show (s'.incPC w).pc v ≤ s.streamLen v
                by_cases hv : v = w
                · subst hv
                  rw [pc_incPC_self, congrFun hp v]
                  exact hguard
                · rw [pc_incPC_of_ne s' hv, congrFun hp v]
                  exact h v
              · next s' heq =>
                have hp := (wait_for_work_st_fields w s).1
                rw [heq] at hp
                dsimp only [WaitOut.st] at hp
                show s'.pc v ≤ s.streamLen v
                rw [congrFun hp v]
                exact h v
            · refine ih (s.incPC w) ?_ v
              intro u
              show (s.incPC w).pc u ≤ s.streamLen u
              by_cases hu : u = w
              · subst hu; rw [pc_incPC_self]; exact hguard
              · rw [pc_incPC_of_ne s hu]; exact h u
    · exact h v

/-- Every instruction-stream index the loop reads is strictly below the
declared stream length. -/
theorem interpGo_reads_lt (w : Nat) :
    ∀ (fuel : Nat) (s : SchedState) (p : Nat),
    p ∈ (interpGo w fuel s).2 → p < s.streamLen w := by
  intro fuel
  induction fuel with
  | zero =>
    intro s p hp
    rw [interpGo] at hp
    simp at hp
  | succ n ih =>
    intro s p hp
    rw [interpGo] at hp
    dsimp only at hp
    split at hp
    · next hguard =>
      split at hp
      · split at hp
        · rw [List.mem_singleton] at hp; subst hp; exact hguard
        · rcases List.mem_cons.mp hp with h1 | h2
          · subst h1; exact hguard
          · exact ih (s.incPC w) p h2
      · split at hp
        · split at hp
          · rcases List.mem_cons.mp hp with h1 | h2
            · subst h1; exact hguard
            · exact ih ((s.decSem _).incPC w) p h2
          · rw [List.mem_singleton] at hp; subst hp; exact hguard
        · split at hp
          · rcases List.mem_cons.mp hp with h1 | h2
            · subst h1; exact hguard
            · exact ih ((s.incSem _).incPC w) p h2
          · split at hp
            · split at hp
              · rw [List.mem_singleton] at hp; subst hp; exact hguard
              · rw [List.mem_singleton] at hp; subst hp; exact hguard
            · rcases List.mem_cons.mp hp with h1 | h2
              · subst h1; exact hguard
              · exact ih (s.incPC w) p h2
    · simp at hp

theorem get_ready_reaction_frame (w : Nat) (s : SchedState) :
    ((lf_sched_get_ready_reaction w s).st).schedule_lengths = s.schedule_lengths ∧
    ((lf_sched_get_ready_reaction w s).st).current_schedule_index = s.current_schedule_index ∧
    ((lf_sched_get_ready_reaction w s).st).static_schedules = s.static_schedules ∧
    ((lf_sched_get_ready_reaction w s).st).reaction_status = s.reaction_status :=
  interpGo_frame w _ s

theorem get_ready_reaction_streamLen (w v : Nat) (s : SchedState) :
    ((lf_sched_get_ready_reaction w s).st).streamLen v = s.streamLen v := by
  have h := get_ready_reaction_frame w s
  unfold SchedState.streamLen
  rw [h.1, h.2.1]

theorem get_ready_reaction_pc_le (w : Nat) (s : SchedState)
    (h : ∀ v, s.pc v ≤ s.streamLen v) (v : Nat) :
    ((lf_sched_get_ready_reaction w s).st).pc v ≤ s.streamLen v :=
  interpGo_pc_le w _ s h v

theorem get_ready_reaction_pc_mono (w : Nat) (s : SchedState) (v : Nat) :
    s.pc v ≤ ((lf_sched_get_ready_reaction w s).st).pc v :=
  interpGo_pc_mono w _ s v

theorem instrReads_lt (w : Nat) (s : SchedState) (p : Nat)
    (hp : p ∈ instrReads w s) : p < s.streamLen w :=
  interpGo_reads_lt w _ s p hp

/-! ## Claim theorems -/

/-- C1: with the program counter at an `Execute(r)` instruction within the
stream's declared length: if reaction `r` is `queued`, the call returns `r`
and leaves the program counter exactly one past the instruction; otherwise
the instruction is skipped with no error, the program counter still advances
by one, and interpretation continues with the next instruction (the call
behaves exactly as a call starting one instruction later). -/
theorem execute_instruction_cases (s : SchedState) (w r : Nat)
    (hlt : s.pc w < s.streamLen w)
    (hinst : (s.instrAt w (s.pc w)).inst = 'e')
    (hop : (s.instrAt w (s.pc w)).op = r) :
    (s.reaction_status r = ReactionStatus.queued →
      lf_sched_get_ready_reaction w s = CallOut.ret (some r) (s.incPC w)) ∧
    (s.reaction_status r ≠ ReactionStatus.queued →
      lf_sched_get_ready_reaction w s = lf_sched_get_ready_reaction w (s.incPC w)) := by
  obtain ⟨m, hm⟩ : ∃ m, s.streamLen w - s.pc w = m + 1 :=
    ⟨s.streamLen w - s.pc w - 1, by omega⟩
  have hm2 : (s.incPC w).streamLen w - (s.incPC w).pc w = m := by
    rw [streamLen_incPC, pc_incPC_self]; omega
  constructor
  · intro hq
    show (interpGo w (s.streamLen w - s.pc w) s).1 = _
    rw [hm, interpGo]
    dsimp only
    rw [if_pos hlt, hinst, hop, if_pos rfl, if_pos hq]
  · intro hq
    show (interpGo w (s.streamLen w - s.pc w) s).1 =
      (interpGo w ((s.incPC w).streamLen w - (s.incPC w).pc w) (s.incPC w)).1
    rw [hm, hm2, interpGo]
    dsimp only
    rw [if_pos hlt, hinst, hop, if_pos rfl, if_neg hq]

/-- C1 witness: on the generated schedule with reactions 0 and 1 queued,
worker 1's call at `Execute(0)` returns reaction 0 with the pc advanced; with
no reaction queued (scenario-C start state), the call at `Execute(0)` behaves
exactly as the call starting at the following instruction. -/
theorem execute_instruction_cases_witness :
    lf_sched_get_ready_reaction 0 scA_s0 = CallOut.ret (some 0) (scA_s0.incPC 0) ∧
    lf_sched_get_ready_reaction 0 scC_s0 = lf_sched_get_ready_reaction 0 (scC_s0.incPC 0) := by
  constructor
  · exact (execute_instruction_cases scA_s0 0 0 (by decide) rfl rfl).1 rfl
  · exact (execute_instruction_cases scC_s0 0 0 (by decide) rfl rfl).2 (by decide)

/-- C4: `lf_sched_done_with_reaction` transitions the reaction's status from
`queued` to `inactive`, and the fatal error fires if and only if the observed
status was not `queued`; in particular a second completion call for the same
reaction without an intervening trigger hits the fatal error. -/
theorem done_with_reaction_fatal_iff (s : SchedState) (w w' r : Nat) :
    (lf_sched_done_with_reaction w r s = none ↔
      s.reaction_status r ≠ ReactionStatus.queued) ∧
    (∀ s', lf_sched_done_with_reaction w r s = some s' →
      s'.reaction_status r = ReactionStatus.inactive ∧
      lf_sched_done_with_reaction w' r s' = none) := by
  unfold lf_sched_done_with_reaction
  by_cases hq : s.reaction_status r = ReactionStatus.queued
  · rw [if_pos hq]
    constructor
    · simp [hq]
    · intro s' hs'
      injection hs' with h2
      subst h2
      constructor
      · simp
      · simp
  · rw [if_neg hq]
    constructor
    · simp [hq]
    · intro s' hs'
      exact absurd hs' (by simp)

/-- C4 witness: after reaction 0 completes in scenario A, its status is
`inactive` and a second completion call for it fires the fatal error. -/
theorem done_with_reaction_fatal_iff_witness :
    scA_s2.reaction_status 0 = ReactionStatus.inactive ∧
    lf_sched_done_with_reaction 1 0 scA_s2 = none :=
  (done_with_reaction_fatal_iff scA_c2.st 0 1 0).2 scA_s2 rfl

/-- C8: `lf_sched_init` is idempotent: after any successful initialization, a
second call with the same arguments returns immediately with the scheduler
state unchanged. -/
theorem lf_sched_init_idempotent (n : Nat) (params : Option sched_params_t)
    (s s' : SchedState) (h : lf_sched_init n params s = some s') :
    lf_sched_init n params s' = some s' := by
  unfold lf_sched_init at h ⊢
  by_cases hi : s.initialized = true
  · rw [if_pos hi] at h
    injection h with h2
    subst h2
    rw [if_pos hi]
  · rw [if_neg hi] at h
    cases params with
    | none => exact absurd h (by simp)
    | some p =>
      injection h with h2
      subst h2
      rw [if_pos rfl]

/-- C8 witness: initializing with 3 workers and then calling `lf_sched_init`
again with the same arguments returns the same state unchanged. -/
theorem lf_sched_init_idempotent_witness :
    lf_sched_init 3 (some ⟨fun _ => ReactionStatus.inactive⟩)
      ((lf_sched_init 3 (some ⟨fun _ => ReactionStatus.inactive⟩)
        (uninitState [true])).getD (uninitState [true]))
    = some ((lf_sched_init 3 (some ⟨fun _ => ReactionStatus.inactive⟩)
        (uninitState [true])).getD (uninitState [true])) :=
  lf_sched_init_idempotent 3 (some ⟨fun _ => ReactionStatus.inactive⟩)
    (uninitState [true]) _ rfl

/-- C9: once a worker's program counter has reached its stream's declared
length, a call returns NULL executing no instruction and leaving the state
exactly unchanged; no call ever decreases any program counter, and
`lf_sched_reset_pc` is what sets the counters back to 0. -/
theorem get_ready_reaction_past_end (w : Nat) (s : SchedState)
    (h : s.streamLen w ≤ s.pc w) :
    lf_sched_get_ready_reaction w s = CallOut.ret none s ∧
    instrReads w s = [] ∧
    (∀ (t : SchedState) (u v : Nat), t.pc v ≤ ((lf_sched_get_ready_reaction u t).st).pc v) ∧
    (∀ (t : SchedState) (v : Nat), v < t.number_of_workers → (lf_sched_reset_pc t).pc v = 0) := by
  have hz : s.streamLen w - s.pc w = 0 := Nat.sub_eq_zero_of_le h
  refine ⟨?_, ?_, ?_, ?_⟩
  · show (interpGo w (s.streamLen w - s.pc w) s).1 = CallOut.ret none s
    rw [hz, interpGo]
  · show (interpGo w (s.streamLen w - s.pc w) s).2 = []
    rw [hz, interpGo]
  · intro t u v
    exact get_ready_reaction_pc_mono u t v
  · intro t v hv
    simp [lf_sched_reset_pc, hv]

/-- C9 witness: in the final scenario-A state worker 1's counter is at its
stream length 3, and its next call returns NULL leaving the state unchanged. -/
theorem get_ready_reaction_past_end_witness :
    scA_c5.st.streamLen 0 ≤ scA_c5.st.pc 0 ∧
    lf_sched_get_ready_reaction 0 scA_c5.st = CallOut.ret none scA_c5.st :=
  ⟨by decide, (get_ready_reaction_past_end 0 scA_c5.st (by decide)).1⟩

/-- C10: `lf_sched_get_ready_reaction` never modifies any reaction's status;
`lf_sched_trigger_reaction` unconditionally sets the target status to
`queued` touching no other reaction, and a successful
`lf_sched_done_with_reaction` is exactly the compare-and-swap
`queued → inactive` on the target reaction, touching no other reaction. -/
theorem reaction_status_writes :
    (∀ (s : SchedState) (w : Nat),
      ((lf_sched_get_ready_reaction w s).st).reaction_status = s.reaction_status) ∧
    (∀ (s : SchedState) (w r : Nat),
      (lf_sched_trigger_reaction r w s).reaction_status r = ReactionStatus.queued ∧
      ∀ r', r' ≠ r →
        (lf_sched_trigger_reaction r w s).reaction_status r' = s.reaction_status r') ∧
    (∀ (s s' : SchedState) (w r : Nat),
      lf_sched_done_with_reaction w r s = some s' →
      s.reaction_status r = ReactionStatus.queued ∧
      s'.reaction_status r = ReactionStatus.inactive ∧
      ∀ r', r' ≠ r → s'.reaction_status r' = s.reaction_status r') := by
  refine ⟨?_, ?_, ?_⟩
  · intro s w
    exact (get_ready_reaction_frame w s).2.2.2
  · intro s w r
    constructor
    · simp [lf_sched_trigger_reaction]
    · intro r' hr
      simp [lf_sched_trigger_reaction, hr]
  · intro s s' w r hdone
    unfold lf_sched_done_with_reaction at hdone
    split at hdone
    · next hq =>
      injection hdone with h2
      subst h2
      refine ⟨hq, by simp, ?_⟩
      intro r' hr
      simp [hr]
    · exact absurd hdone (by simp)

/-- C10 witness: worker 1's first scenario-A call leaves every reaction
status unchanged, and the completion of reaction 0 is the CAS
`queued → inactive` there. -/
theorem reaction_status_writes_witness :
    ((lf_sched_get_ready_reaction 0 scA_s0).st).reaction_status = scA_s0.reaction_status ∧
    scA_c2.st.reaction_status 0 = ReactionStatus.queued ∧
    scA_s2.reaction_status 0 = ReactionStatus.inactive :=
  ⟨reaction_status_writes.1 scA_s0 0,
    (reaction_status_writes.2.2 scA_c2.st scA_s2 0 0 rfl).1,
    (reaction_status_writes.2.2 scA_c2.st scA_s2 0 0 rfl).2.1⟩

/-- C2 (failing-input theorem): in the scenario-A interleaving but with a
non-terminal tag (workers 2 and 3 blocked inside `_lf_sched_wait_for_work`,
worker 1 elected), the elected worker's call returns: no program counter is
reset to 0 (worker 1's stays at 3), the scheduling semaphore is never
released (it stays 0, so the waiting workers can never resume), no new
schedule is bound, and the idle count is not reset — the reset/notify logic
of `_lf_sched_notify_workers` is commented out (TODO) and
`_lf_sched_wait_for_work` itself resets nothing. -/
theorem nonterminal_tag_no_reset_no_release :
    scB_c5.retVal = some none ∧
    scB_c5.st.number_of_idle_workers = 3 ∧
    scB_c5.st.pc 0 = 3 ∧
    scB_c5.st.sched_semaphore = 0 ∧
    scB_c5.st.current_schedule_index = 0 ∧
    resumeBlockedSched 1 scB_c5.st = none ∧
    resumeBlockedSched 2 scB_c5.st = none :=
  ⟨rfl, rfl, rfl, rfl, rfl, rfl, rfl⟩

/-- C3: end-to-end scenario A on the generated schedule
(`s1 = { [Execute(0), Execute(1), Stop], [Stop], [Stop] }`, 3 workers,
reactions 0 and 1 pre-triggered, terminal tag at the first advance):
worker 1's first two calls return reactions 0 then 1; after the two
completion calls, workers 2 and 3 go idle (their calls block on the
scheduling semaphore), worker 1's third call is elected, detects the
terminal tag, sets the stop flag, releases the other two workers and returns
NULL; the two released workers' calls then complete, each returning NULL. -/
theorem scenario_A_end_to_end :
    scA_c1.retVal = some (some 0) ∧
    scA_c2.retVal = some (some 1) ∧
    (lf_sched_done_with_reaction 0 0 scA_c2.st).isSome = true ∧
    (lf_sched_done_with_reaction 0 1 scA_s2).isSome = true ∧
    scA_c3.retVal = none ∧
    scA_c4.retVal = none ∧
    scA_c5.retVal = some none ∧
    scA_c5.st.should_stop = true ∧
    scA_r1.map CallOut.retVal = some (some none) ∧
    scA_r2.map CallOut.retVal = some (some none) :=
  ⟨rfl, rfl, rfl, rfl, rfl, rfl, rfl, rfl, rfl, rfl⟩

/-- C5 (failing-input theorem): with one worker and a non-terminal first tag,
the idle-worker count is 1 after the first per-tag idle phase, is never reset
by the elected worker, and after the schedule is re-armed for the second tag
(`lf_sched_reset_pc`) the worker's next Stop pushes it to 2, exceeding the
configured worker count of 1. -/
theorem idle_worker_count_exceeds_total :
    scC_c1.st.number_of_idle_workers = 1 ∧
    scC_c2.st.number_of_workers = 1 ∧
    scC_c2.st.number_of_idle_workers = 2 ∧
    scC_c2.st.number_of_workers < scC_c2.st.number_of_idle_workers :=
  ⟨rfl, rfl, rfl, by decide⟩

/-- C6: when the elected worker (the last to go idle) finds the terminal tag
reached, `_lf_sched_wait_for_work` returns having set `should_stop = true`
and released the scheduling semaphore exactly `number_of_workers - 1` times;
and a non-elected worker whose released acquire succeeds at its Stop
instruction returns NULL from `lf_sched_get_ready_reaction` with the stop
flag observed true. -/
theorem terminal_tag_stop_protocol :
    (∀ (s : SchedState) (w : Nat),
      s.number_of_idle_workers + 1 = s.number_of_workers →
      s.tag_results.headD true = true →
      ∃ s', _lf_sched_wait_for_work w s = WaitOut.done s' ∧
        s'.should_stop = true ∧
        s'.sched_semaphore = s.sched_semaphore + (s.number_of_workers - 1)) ∧
    (∀ (t : SchedState) (w : Nat),
      t.pc w < t.streamLen w →
      (t.instrAt w (t.pc w)).inst = 's' →
      t.number_of_idle_workers + 1 ≠ t.number_of_workers →
      0 < t.sched_semaphore →
      t.should_stop = true →
      ∃ u, lf_sched_get_ready_reaction w t = CallOut.ret none u ∧
        u.should_stop = true) := by
  constructor
  · intro s w hel hterm
    unfold _lf_sched_wait_for_work _lf_sched_advance_tag_locked _lf_sched_notify_workers
      _lf_sched_signal_stop
    dsimp only
    rw [if_pos hel, hterm, if_pos rfl]
    exact ⟨_, rfl, rfl, rfl⟩
  · intro t w hlt hstop hne hsem hflag
    obtain ⟨m, hm⟩ : ∃ m, t.streamLen w - t.pc w = m + 1 :=
      ⟨t.streamLen w - t.pc w - 1, by omega⟩
    have hw : _lf_sched_wait_for_work w t =
        WaitOut.done
          { t with
            number_of_idle_workers := t.number_of_idle_workers + 1
            sched_semaphore := t.sched_semaphore - 1 } := by
      unfold _lf_sched_wait_for_work
      dsimp only
      rw [if_neg hne, if_pos hsem]
    show ∃ u, (interpGo w (t.streamLen w - t.pc w) t).1 = CallOut.ret none u ∧
      u.should_stop = true
    rw [hm, interpGo]
    dsimp only
    rw [if_pos hlt, hstop, if_neg (by decide), if_neg (by decide),
      if_neg (by decide), if_pos rfl, hw]
    exact ⟨_, rfl, hflag⟩

/-- C6 witness: in scenario A, worker 1's third call (the elected one, on
state `scA_c4.st`) performs the terminal-tag stop protocol, and worker 2's
blocked call — re-examined as a fresh call on the released state
`scA_c5.st` — returns NULL with the stop flag set. -/
theorem terminal_tag_stop_protocol_witness :
    (∃ s', _lf_sched_wait_for_work 0 scA_c4.st = WaitOut.done s' ∧
      s'.should_stop = true ∧
      s'.sched_semaphore = scA_c4.st.sched_semaphore +
        (scA_c4.st.number_of_workers - 1)) ∧
    (∃ u, lf_sched_get_ready_reaction 1 scA_c5.st = CallOut.ret none u ∧
      u.should_stop = true) :=
  ⟨terminal_tag_stop_protocol.1 scA_c4.st 0 rfl rfl,
    terminal_tag_stop_protocol.2 scA_c5.st 1 (by decide) rfl (by decide)
      (by decide) rfl⟩

/-- C7: starting from any state whose program counters are within the
declared stream lengths, after any sequence of `lf_sched_get_ready_reaction`
calls every program counter is still at most the declared length of its
stream in the active schedule, and no call in the sequence ever read an
instruction at an index at or past the declared length of the stream it
interpreted. -/
theorem pc_within_bounds (s : SchedState) (ws : List Nat)
    (h : ∀ v, s.pc v ≤ s.streamLen v) :
    (∀ v, (runCalls s ws).1.pc v ≤ (runCalls s ws).1.streamLen v) ∧
    (∀ q ∈ (runCalls s ws).2, q.2 < s.streamLen q.1) := by
  induction ws generalizing s with
  | nil =>
    constructor
    · exact h
    · intro q hq
      rw [runCalls] at hq
      simp at hq
  | cons w ws ih =>
    have hlen : ∀ v, ((lf_sched_get_ready_reaction w s).st).streamLen v = s.streamLen v :=
      fun v => get_ready_reaction_streamLen w v s
    have h1 : ∀ v, ((lf_sched_get_ready_reaction w s).st).pc v ≤
        ((lf_sched_get_ready_reaction w s).st).streamLen v := by
      intro v
      rw [hlen v]
      exact get_ready_reaction_pc_le w s h v
    obtain ⟨ihA, ihB⟩ := ih ((lf_sched_get_ready_reaction w s).st) h1
    constructor
    · exact ihA
    · intro q hq
      rw [runCalls] at hq
      dsimp only at hq
      rcases List.mem_append.mp hq with h1' | h2'
      · rcases List.mem_map.mp h1' with ⟨p, hpmem, rfl⟩
        exact instrReads_lt w s p hpmem
      · have hq2 := ihB q h2'
        rw [hlen q.1] at hq2
        exact hq2

/-- C7 witness: the scenario-A start state has all counters at 0, and the
witness call sequence is the full scenario-A interleaving. -/
theorem pc_within_bounds_witness :
    (∀ v, scA_s0.pc v ≤ scA_s0.streamLen v) ∧
    ((∀ v, (runCalls scA_s0 [0, 0, 1, 2, 0]).1.pc v ≤
        (runCalls scA_s0 [0, 0, 1, 2, 0]).1.streamLen v) ∧
      (∀ q ∈ (runCalls scA_s0 [0, 0, 1, 2, 0]).2, q.2 < scA_s0.streamLen q.1)) :=
  ⟨fun v => Nat.zero_le _,
    pc_within_bounds scA_s0 [0, 0, 1, 2, 0] (fun v => Nat.zero_le _)⟩
